import Mathlib

/-!
Verification of the `sql-domain-filter` fragment builder.

Shallow embedding of `src/sql.rs` and `src/lib.rs`. Rust `String`s are
modelled as `List Char` (the finalize scan iterates `chars()`), and the
type-erased parameter values (`Vec<&dyn Any>`) are modelled by a type
parameter `α`.
-/

namespace SqlDomainFilter

/-- Embedding of the Rust struct `Sql` from `src/sql.rs`.
The Rust field `query` is renamed to `queryField` here because Lean
cannot give a structure a field and a method of the same name; the
accessor method `Sql.query` below keeps the source method name. -/
structure Sql (α : Type) where
  queryField : List Char
  fragment : List Char
  params : List α
deriving Repr

/-- `Sql::new`: `query` starts empty, `fragment` is copied, `params` is the
given slice or empty when `None`. -/
def Sql.new (fragment : List Char) (params : Option (List α)) : Sql α :=
  { queryField := [], fragment := fragment, params := params.getD [] }

/-- `Sql::append`: pushes a single `' '` onto `self.fragment`, then appends
`sql.fragment`; appends `sql.params` to `self.params`. The `query` field is
left as it was on `self`. -/
def Sql.append (s other : Sql α) : Sql α :=
  { s with
    fragment := s.fragment ++ ' ' :: other.fragment,
    params := s.params ++ other.params }

/-- `Sql::query`: returns (a clone of) the `fragment` field. -/
def Sql.query (s : Sql α) : List Char :=
  s.fragment

/-- `Sql::formatted`: returns (a clone of) the `query` field. -/
def Sql.formatted (s : Sql α) : List Char :=
  s.queryField

/-- The character loop inside `Sql::finalize`: scans the fragment left to
right with a running counter `idx`; each `'?'` becomes `'$'` followed by
the decimal digits of `idx` (and `idx` is incremented), every other
character is pushed unchanged. -/
def finalizeChars : List Char → Nat → List Char
  | [], _ => []
  | c :: cs, idx =>
    if c = '?' then ('$' :: Nat.toDigits 10 idx) ++ finalizeChars cs (idx + 1)
    else c :: finalizeChars cs idx

/-- `Sql::finalize`: rebuilds the `query` field from the fragment with the
counter starting at 1; `fragment` and `params` are untouched. -/
def Sql.finalize (s : Sql α) : Sql α :=
  { s with queryField := finalizeChars s.fragment 1 }

/-- `Sql::identifier`: `format!(r#""{arg}""#)`, i.e. the argument wrapped in
double quotes with no escaping. -/
def Sql.identifier (arg : List Char) : List Char :=
  '\"' :: arg ++ ['\"']

/-- Embedding of `sql_operators` from `src/lib.rs`: the `HashMap` literal is
modelled as an association list over the same key/value pairs (the keys are
distinct, so exact-match lookup agrees with the map). -/
def sql_operators (α : Type) : List (List Char × Sql α) :=
  [ ("=".toList, Sql.new "=".toList none),
    ("!=".toList, Sql.new "!=".toList none),
    ("<=".toList, Sql.new "<=".toList none),
    ("<".toList, Sql.new "<".toList none),
    (">".toList, Sql.new ">".toList none),
    (">=".toList, Sql.new ">=".toList none),
    ("in".toList, Sql.new "IN".toList none),
    ("not in".toList, Sql.new "NOT IN".toList none),
    ("=like".toList, Sql.new "LIKE".toList none),
    ("=ilike".toList, Sql.new "ILIKE".toList none),
    ("like".toList, Sql.new "LIKE".toList none),
    ("ilike".toList, Sql.new "ILIKE".toList none),
    ("not like".toList, Sql.new "NOT LIKE".toList none),
    ("not ilike".toList, Sql.new "NOT ILIKE".toList none) ]

/-- Exact-match lookup in the operator table, as `HashMap::get` does. -/
def lookupOperator (α : Type) (tok : List Char) : Option (Sql α) :=
  ((sql_operators α).find? (fun p => p.1 = tok)).map Prod.snd

/-- Fragments reachable from construction by `new` and any sequence of
`append`s, with `finalize` never called. -/
inductive Reachable : Sql α → Prop where
  | new (t : List Char) (p : Option (List α)) : Reachable (Sql.new t p)
  | append {f g : Sql α} : Reachable f → Reachable g → Reachable (f.append g)

/-- Whitespace trimming used to state the identity-up-to-whitespace claim. -/
def trimChars (l : List Char) : List Char :=
  (((l.dropWhile Char.isWhitespace).reverse.dropWhile Char.isWhitespace)).reverse

/-- Every character of `t` differs from the placeholder marker. -/
def NoMarker (t : List Char) : Prop :=
  ∀ c ∈ t, c ≠ '?'

instance (t : List Char) : Decidable (NoMarker t) := by
  unfold NoMarker; infer_instance

lemma dropWhile_append_char (p : Char → Bool) (l₁ l₂ : List Char) :
    List.dropWhile p (l₁ ++ l₂) =
      if (List.dropWhile p l₁).isEmpty then List.dropWhile p l₂
      else List.dropWhile p l₁ ++ l₂ := by
  induction l₁ with
  | nil => simp
  | cons a l ih =>
    by_cases h : p a <;> simp [List.dropWhile_cons, h, ih]

lemma trimChars_cons_space (s : List Char) :
    trimChars (' ' :: s) = trimChars s := by
  simp [trimChars, List.dropWhile_cons]

lemma trimChars_append_space (s : List Char) :
    trimChars (s ++ [' ']) = trimChars s := by
  unfold trimChars
  rw [dropWhile_append_char]
  by_cases h : (List.dropWhile Char.isWhitespace s).isEmpty
  · have h0 : List.dropWhile Char.isWhitespace s = [] := by
      simpa [List.isEmpty_iff] using h
    simp [h, h0, List.dropWhile_cons]
  · simp [h, List.dropWhile_cons]

/-- Claim C1: `finalize` scans the fragment text left to right, replacing
each `'?'` by `'$'` followed by a 1-based counter that increments by exactly
one per marker; every non-marker character is copied unchanged; in
particular `finalize(Fragment("a=? and b=?")).formatted() = "a=$1 and b=$2"`.
Part 1: a marker-free text is copied verbatim at any counter value.
Part 2: the first marker at counter `i` emits the digits of `i` and the scan
continues after it at `i + 1`.  Part 3: the scan starts at counter 1, giving
the concrete example. -/
theorem C1_finalize_scan :
    (∀ (t : List Char) (i : Nat), NoMarker t → finalizeChars t i = t) ∧
    (∀ (a b : List Char) (i : Nat), NoMarker a →
      finalizeChars (a ++ '?' :: b) i
        = a ++ '$' :: Nat.toDigits 10 i ++ finalizeChars b (i + 1)) ∧
    ((Sql.new "a=? and b=?".toList (none : Option (List Unit))).finalize).formatted
      = "a=$1 and b=$2".toList := by
  refine ⟨?_, ?_, by decide⟩
  · intro t
    induction t with
    | nil => intro i _; rfl
    | cons c cs ih =>
      intro i h
      have hc : c ≠ '?' := h c (by simp)
      simp [finalizeChars, hc, ih i (fun x hx => h x (by simp [hx]))]
  · intro a
    induction a with
    | nil => intro b i _; simp [finalizeChars]
    | cons c cs ih =>
      intro b i h
      have hc : c ≠ '?' := h c (by simp)
      simp [finalizeChars, hc, ih b i (fun x hx => h x (by simp [hx]))]

/-- Witness for C1 at concrete inputs. -/
theorem C1_finalize_scan_witness :
    finalizeChars "ab".toList 3 = "ab".toList ∧
    finalizeChars ("x=".toList ++ '?' :: " y=?".toList) 1
      = "x=".toList ++ '$' :: Nat.toDigits 10 1 ++ finalizeChars " y=?".toList 2 := by
  exact ⟨C1_finalize_scan.1 "ab".toList 3 (by decide),
    C1_finalize_scan.2.1 "x=".toList " y=?".toList 1 (by decide)⟩

/-- Claim C2: `append` concatenates the texts with exactly one separating
space and the parameter lists in order, with no reordering, drops or
duplication; concretely `append(Fragment("A"), Fragment("B")).query() =
"A B"`. -/
theorem C2_append_concat {α : Type} :
    (∀ (a b : List Char) (pa pb : List α),
      ((Sql.new a (some pa)).append (Sql.new b (some pb))).query
          = a ++ ' ' :: b ∧
      ((Sql.new a (some pa)).append (Sql.new b (some pb))).params = pa ++ pb) ∧
    ((Sql.new "A".toList (none : Option (List Unit))).append
        (Sql.new "B".toList none)).query = "A B".toList := by
  exact ⟨fun a b pa pb => ⟨rfl, rfl⟩, by decide⟩

/-- Claim C3: `finalize` never detects or fails on a count mismatch between
markers and parameters (it is a total function in this model), and the
finalized text is determined solely by the fragment text — identical for
any parameter list, including the empty one. -/
theorem C3_finalize_ignores_params {α β : Type} :
    (∀ (f : Sql α) (g : Sql β), f.fragment = g.fragment →
      f.finalize.formatted = g.finalize.formatted) ∧
    (∀ (t : List Char) (p : List α),
      ((Sql.new t (some p)).finalize).formatted
        = ((Sql.new t none : Sql α).finalize).formatted) := by
  constructor
  · intro f g h
    simp [Sql.finalize, Sql.formatted, h]
  · intro t p
    simp [Sql.new, Sql.finalize, Sql.formatted]

/-- Witness for C3: two fragments with the same text but different
parameter lists finalize to the same formatted text. -/
theorem C3_finalize_ignores_params_witness :
    (Sql.mk [] "a=?".toList [0, 1] : Sql Nat).finalize.formatted
      = (Sql.mk [] "a=?".toList [] : Sql Nat).finalize.formatted := by
  exact C3_finalize_ignores_params.1
    (Sql.mk [] "a=?".toList [0, 1]) (Sql.mk [] "a=?".toList []) rfl

/-- Claim C4: `finalize` is idempotent in effect: a second `finalize`
changes nothing observable via `formatted()`, `query()` or `params()`. -/
theorem C4_finalize_idempotent {α : Type} (f : Sql α) :
    (f.finalize.finalize).formatted = f.finalize.formatted ∧
    (f.finalize.finalize).query = f.finalize.query ∧
    (f.finalize.finalize).params = f.finalize.params :=
  ⟨rfl, rfl, rfl⟩

/-- Claim C5: the empty fragment has empty query text and no parameters,
and is a left and right identity for text concatenation under `append` up
to surrounding whitespace. -/
theorem C5_empty_identity {α : Type} :
    (Sql.new "".toList none : Sql α).query = "".toList ∧
    (Sql.new "".toList none : Sql α).params.length = 0 ∧
    (∀ f : Sql α,
      trimChars (((Sql.new "".toList none).append f).query) = trimChars f.query ∧
      trimChars ((f.append (Sql.new "".toList none)).query) = trimChars f.query) := by
  refine ⟨rfl, rfl, fun f => ⟨?_, ?_⟩⟩
  · show trimChars ("".toList ++ ' ' :: f.fragment) = trimChars f.fragment
    simp [trimChars_cons_space]
  · show trimChars (f.fragment ++ ' ' :: "".toList) = trimChars f.fragment
    simpa using trimChars_append_space f.fragment

/-- Claim C6: any fragment reachable from construction by `new` and
`append` alone, with `finalize` never called, has empty `formatted()`
text. -/
theorem C6_formatted_empty_before_finalize {α : Type} (f : Sql α)
    (h : Reachable f) : f.formatted = [] := by
  induction h with
  | new t p => rfl
  | append hf hg ihf ihg => exact ihf

/-- Witness for C6: a fragment built by one `append` of two `new`s has
empty formatted text. -/
theorem C6_formatted_empty_before_finalize_witness :
    Reachable ((Sql.new "a=?".toList (some [0])).append
        (Sql.new "b".toList (none : Option (List Nat)))) ∧
    ((Sql.new "a=?".toList (some [0])).append
        (Sql.new "b".toList (none : Option (List Nat)))).formatted = [] := by
  have hr : Reachable ((Sql.new "a=?".toList (some [0])).append
      (Sql.new "b".toList (none : Option (List Nat)))) :=
    Reachable.append (Reachable.new _ _) (Reachable.new _ _)
  exact ⟨hr, C6_formatted_empty_before_finalize _ hr⟩

/-- Claim C7: construction stores the text verbatim — `query()` returns
exactly the text passed to `new`, markers included — and the accessors are
pure reads: on the same fragment value they return identical values each
time (immediate in this purely functional model). -/
theorem C7_query_returns_text {α : Type} :
    (∀ (t : List Char) (p : Option (List α)), (Sql.new t p).query = t) ∧
    (∀ f : Sql α, f.query = f.query ∧ f.params = f.params) ∧
    (Sql.new "a=? and b=?".toList (none : Option (List Unit))).query
      = "a=? and b=?".toList := by
  exact ⟨fun t p => rfl, fun f => ⟨rfl, rfl⟩, by decide⟩

/-- Claim C8: `identifier` wraps its argument in double quotes with no
internal escaping, even when the name itself contains a double quote. -/
theorem C8_identifier_wraps :
    (∀ n : List Char, Sql.identifier n = '\"' :: (n ++ ['\"'])) ∧
    Sql.identifier "foo".toList = "\"foo\"".toList ∧
    Sql.identifier "a\"b".toList = "\"a\"b\"".toList := by
  exact ⟨fun n => rfl, by decide, by decide⟩

/-- Claim C9: operator lookup is exact-match on the token string:
`"not in"` maps to a fragment with text `"NOT IN"`, `"="` to `"="`, and an
absent token such as `"unknown_token"` yields no match rather than an
error. -/
theorem C9_operator_lookup :
    (lookupOperator Unit "not in".toList).map Sql.query = some "NOT IN".toList ∧
    (lookupOperator Unit "=".toList).map Sql.query = some "=".toList ∧
    (lookupOperator Unit "unknown_token".toList).map Sql.query = none := by
  exact ⟨by decide, by decide, by decide⟩

/-- Claim C10: `finalize` modifies only the derived finalized text: the raw
fragment text (markers intact) and the ordered parameter list are
unchanged. -/
theorem C10_finalize_frame {α : Type} (f : Sql α) :
    f.finalize.query = f.query ∧ f.finalize.params = f.params :=
  ⟨rfl, rfl⟩

end SqlDomainFilter
